import Mathlib

/-!
Verification of the parcel-crawl-service client (src/static/app.js) and of the
spec-level geometry fitter / job orchestrator boundary.

JavaScript doubles are modelled by exact rationals (`ℚ`) for the coordinate
plumbing of the client, and by `ℝ` where the source computes square roots
(`Math.hypot`, vector normalization).  Fallible operations return `Option` /
`Except`.  DOM state touched by the handlers in app.js is carried explicitly
in a `ClientState` record and every event handler becomes a pure state
transition; network calls are oracles (`respond` functions) consulted exactly
where the source performs its `fetch`.
-/

set_option maxHeartbeats 1000000

namespace ParcelCrawl

/-- A 2D point, coordinates exact rationals (JS numbers). -/
structure Pt where
  x : ℚ
  y : ℚ
deriving DecidableEq

def addP (a b : Pt) : Pt := ⟨a.x + b.x, a.y + b.y⟩

def subP (a b : Pt) : Pt := ⟨a.x - b.x, a.y - b.y⟩

def smulP (c : ℚ) (a : Pt) : Pt := ⟨c * a.x, c * a.y⟩

def dotP (a b : Pt) : ℚ := a.x * b.x + a.y * b.y

/-- Rotate a vector by 90 degrees counter-clockwise. -/
def rot90 (a : Pt) : Pt := ⟨-a.y, a.x⟩

/-- The signed area test: cross product of (b - a) and (c - a). -/
def orient (a b c : Pt) : ℚ :=
  (b.x - a.x) * (c.y - a.y) - (b.y - a.y) * (c.x - a.x)

/-- The `viewBox` object of app.js: world-coordinate bounds plus a
world-to-canvas scale factor. -/
structure ViewBox where
  minX : ℚ
  maxX : ℚ
  minY : ℚ
  maxY : ℚ
  scale : ℚ
deriving DecidableEq

/-- The default viewBox (app.js line 59 and the empty branch of
`recomputeViewBox`). -/
def defaultViewBox : ViewBox := ⟨-50, 50, -50, 50, 2⟩

/-- `const padding = 20;` (app.js line 54). -/
def padding : ℚ := 20

/-- `worldToCanvas` (app.js lines 194-198).  `H` is `canvas.height`. -/
def worldToCanvas (vb : ViewBox) (H : ℚ) (p : Pt) : Pt :=
  ⟨(p.x - vb.minX) * vb.scale + padding,
   H - ((p.y - vb.minY) * vb.scale + padding)⟩

/-- `canvasToWorld` (app.js lines 200-204). -/
def canvasToWorld (vb : ViewBox) (H : ℚ) (cx cy : ℚ) : Pt :=
  ⟨(cx - padding) / vb.scale + vb.minX,
   (H - cy - padding) / vb.scale + vb.minY⟩

/-! ### Folded minima / maxima (`Math.min(...xs)` / `Math.max(...xs)`) -/

/-- `Math.min(...l)` for a nonempty list; the `[]` case is unreachable in the
source (guarded by `if (!xs.length)`), 0 is a junk value. -/
def jsMin (l : List ℚ) : ℚ :=
  match l with
  | [] => 0
  | a :: r => r.foldl min a

/-- `Math.max(...l)` for a nonempty list; `[]` unreachable, junk value 0. -/
def jsMax (l : List ℚ) : ℚ :=
  match l with
  | [] => 0
  | a :: r => r.foldl max a

/-! ### `recomputeViewBox` (app.js lines 206-242) -/

/-- The front-origin / front-vector points pushed by `recomputeViewBox`:
`frontOrigin` when truthy, then `frontOrigin + frontVector` when both are
truthy. -/
def frontPts (fo fv : Option Pt) : List Pt :=
  match fo, fv with
  | none, _ => []
  | some o, none => [o]
  | some o, some v => [o, addP o v]

/-- The x coordinates pushed into `xs` by `recomputeViewBox`: every vertex of
every path, the footprint vertices, then the front points. -/
def collectXs (paths : List (List Pt)) (fw : List Pt) (fo fv : Option Pt) : List ℚ :=
  (paths.map (fun path => path.map Pt.x)).flatten ++ fw.map Pt.x ++
    (frontPts fo fv).map Pt.x

/-- The y coordinates pushed into `ys` by `recomputeViewBox`. -/
def collectYs (paths : List (List Pt)) (fw : List Pt) (fo fv : Option Pt) : List ℚ :=
  (paths.map (fun path => path.map Pt.y)).flatten ++ fw.map Pt.y ++
    (frontPts fo fv).map Pt.y

/-- `recomputeViewBox` (app.js lines 206-242).  `W`, `H` are
`canvas.width` / `canvas.height`. -/
def recomputeViewBox (W H : ℚ) (paths : List (List Pt)) (fw : List Pt)
    (fo fv : Option Pt) : ViewBox :=
  let xs := collectXs paths fw fo fv
  let ys := collectYs paths fw fo fv
  if xs.isEmpty then defaultViewBox
  else
    let minX := jsMin xs
    let maxX := jsMax xs
    let minY := jsMin ys
    let maxY := jsMax ys
    let rangeX := max 1 (maxX - minX)
    let rangeY := max 1 (maxY - minY)
    let scale := min ((W - padding * 2) / rangeX) ((H - padding * 2) / rangeY)
    ⟨minX, maxX, minY, maxY, scale⟩

/-- `p` lies inside the world bounds of a viewBox. -/
def inViewBox (vb : ViewBox) (p : Pt) : Prop :=
  vb.minX ≤ p.x ∧ p.x ≤ vb.maxX ∧ vb.minY ≤ p.y ∧ p.y ≤ vb.maxY

/-! ### Client state and event handlers (app.js lines 54-546) -/

inductive CaptureMode where
  | footprint
  | front
deriving DecidableEq

/-- Body of the POST `/files/<name>/shrinkwrap` request assembled by the
`applyCapture` handler (app.js lines 409-416). -/
structure SwRequest where
  rectangle_points : List Pt
  front_points : List Pt
deriving DecidableEq

/-- JSON body of a successful shrink-wrap response; `none` fields model
absent/falsy JSON members (the client applies `|| []` / `|| null`). -/
structure SwResult where
  footprint_points : Option (List Pt)
  front_origin : Option Pt
  front_direction : Option Pt

/-- The slice of a job JSON object the client reads. -/
structure JobInfo where
  id : String
  status : String
deriving DecidableEq

/-- The mutable client-side state of the designs page (module-level `let`s of
app.js plus the DOM state the claims mention: start button, result box,
status line, poll timer). -/
structure ClientState where
  currentFilename : Option String
  geometryPaths : List (List Pt)
  viewBox : ViewBox
  captureMode : CaptureMode
  rectanglePoints : List Pt
  frontPoints : List Pt
  footprintWorld : List Pt
  frontOrigin : Option Pt
  frontVector : Option Pt
  shrinkwrapReady : Bool
  startDisabled : Bool
  jobHistory : List (String × String)
  resultBox : Option JobInfo
  pollTimer : Option String
  statusText : String

/-- Initial values of the module-level `let`s (app.js lines 54-69); the start
button starts disabled (`updateStartButton` on init). -/
def initState : ClientState where
  currentFilename := none
  geometryPaths := []
  viewBox := defaultViewBox
  captureMode := .footprint
  rectanglePoints := []
  frontPoints := []
  footprintWorld := []
  frontOrigin := none
  frontVector := none
  shrinkwrapReady := false
  startDisabled := true
  jobHistory := []
  resultBox := none
  pollTimer := none
  statusText := ""

/-- `readyForJob` (app.js lines 76-78). -/
def readyForJob (s : ClientState) : Bool :=
  s.shrinkwrapReady && decide (3 ≤ s.footprintWorld.length) && s.frontVector.isSome

/-- `updateStartButton` (app.js lines 80-88). -/
def updateStartButton (s : ClientState) : ClientState :=
  { s with startDisabled := !readyForJob s }

/-- `Map.set` on `jobHistory` keyed by job id: replace in place if the key
exists, append otherwise. -/
def historySet (k v : String) (m : List (String × String)) : List (String × String) :=
  if m.any (fun e => e.1 = k) then
    m.map (fun e => if e.1 = k then (k, v) else e)
  else m ++ [(k, v)]

/-- The canvas `click` handler (app.js lines 361-376): convert the click to
world coordinates and record it as a rectangle or front point, resetting a
full triple/pair first.  `H` is `canvas.height`. -/
def canvasClickStep (H : ℚ) (s : ClientState) (rawX rawY : ℚ) : ClientState :=
  let worldPoint := canvasToWorld s.viewBox H rawX rawY
  match s.captureMode with
  | .footprint =>
      let pts := if 3 ≤ s.rectanglePoints.length then [] else s.rectanglePoints
      { s with rectanglePoints := pts ++ [worldPoint] }
  | .front =>
      let pts := if 2 ≤ s.frontPoints.length then [] else s.frontPoints
      { s with frontPoints := pts ++ [worldPoint] }

/-- The `clearCanvas` handler (app.js lines 386-394): clear all captured
geometry, then `updateSummaries` (which calls `updateStartButton`). -/
def clearCanvasStep (s : ClientState) : ClientState :=
  updateStartButton
    { s with rectanglePoints := [], frontPoints := [], frontOrigin := none,
             frontVector := none, footprintWorld := [] }

/-- The `applyCapture` handler (app.js lines 395-436).  `respond` is the
server's answer to the POST shrink-wrap request; `.error` covers both a
thrown fetch and a non-ok response (the handler throws on `!resp.ok`).
Returns the new state and the request that was issued, if any. -/
def applyCaptureStep (W H : ℚ) (s : ClientState)
    (respond : SwRequest → Except String SwResult) :
    ClientState × Option SwRequest :=
  if s.currentFilename.isNone then (s, none)
  else if s.rectanglePoints.length < 3 then (s, none)
  else if s.frontPoints.length < 2 then (s, none)
  else
    let req : SwRequest := ⟨s.rectanglePoints, s.frontPoints⟩
    match respond req with
    | .error e => ({ s with statusText := "Shrink-wrap failed: " ++ e }, some req)
    | .ok data =>
        let s1 := { s with
          footprintWorld := data.footprint_points.getD [],
          frontOrigin := data.front_origin,
          frontVector := data.front_direction,
          shrinkwrapReady := true,
          rectanglePoints := [],
          frontPoints := [] }
        let s2 := { s1 with viewBox :=
          (recomputeViewBox W H s1.geometryPaths s1.footprintWorld
            s1.frontOrigin s1.frontVector) }
        let s3 := updateStartButton s2
        ({ s3 with statusText := "Shrink-wrap captured. Ready to start crawl.",
                   startDisabled := false }, some req)

/-- The successful path of `loadGeometry(filename)` (app.js lines 459-474):
install the fetched paths, clear every piece of captured shrink-wrap state,
recompute the viewBox and refresh the start button. -/
def loadGeometryStep (W H : ℚ) (s : ClientState) (paths : List (List Pt)) :
    ClientState :=
  let s1 := { s with
    geometryPaths := paths,
    rectanglePoints := [],
    frontPoints := [],
    footprintWorld := [],
    frontOrigin := none,
    frontVector := none,
    shrinkwrapReady := false }
  let s2 := { s1 with viewBox :=
    (recomputeViewBox W H s1.geometryPaths s1.footprintWorld s1.frontOrigin
      s1.frontVector) }
  updateStartButton s2

/-- The `openCapture` handler (app.js lines 438-451), successful path: select
the filename, then `loadGeometry`. -/
def openCaptureStep (W H : ℚ) (s : ClientState) (filename : String)
    (paths : List (List Pt)) : ClientState :=
  loadGeometryStep W H { s with currentFilename := some filename } paths

/-- One user/UI event on the designs page. -/
inductive ClientEvent where
  | canvasClick (rawX rawY : ℚ)
  | footprintMode
  | frontMode
  | clearCanvas
  | applyCapture (respond : SwRequest → Except String SwResult)
  | openCapture (filename : String) (paths : List (List Pt))

/-- One step of the client event loop; returns the new state and the
shrink-wrap request issued by this event, if any. -/
def step (W H : ℚ) (s : ClientState) : ClientEvent → ClientState × Option SwRequest
  | .canvasClick rawX rawY => (canvasClickStep H s rawX rawY, none)
  | .footprintMode =>
      ({ s with captureMode := .footprint, statusText := "Footprint mode active." }, none)
  | .frontMode =>
      ({ s with captureMode := .front, statusText := "Front mode active." }, none)
  | .clearCanvas => (clearCanvasStep s, none)
  | .applyCapture respond => applyCaptureStep W H s respond
  | .openCapture filename paths => (openCaptureStep W H s filename paths, none)

/-- Run a sequence of events from a state. -/
def runEvents (W H : ℚ) (s : ClientState) : List ClientEvent → ClientState
  | [] => s
  | e :: rest => runEvents W H (step W H s e).1 rest

/-! ### Job submission from the client (`handleJob`, app.js lines 476-519) -/

structure JobConfig where
  cycles : ℚ
  buffer : ℚ
  rotation_step : ℚ
  score_workers : ℚ

/-- The job form data read by `handleJob` (`dxf` is `None` when no remote
file is selected — the falsy guard at line 480). -/
structure JobForm where
  address : String
  dxf : Option String
  config : JobConfig

/-- `Number(x.toFixed(3))`, exact: round to 3 decimal places
(JS `toFixed` rounds to nearest, ties away from zero toward +∞,
matching Mathlib's `round`). -/
def toFixed3q (x : ℚ) : ℚ := (round (x * 1000) : ℤ) / 1000

/-- `Number(x.toFixed(4))` over the reals. -/
noncomputable def jsToFixed4R (x : ℝ) : ℝ := ((round (x * 10000) : ℤ) : ℝ) / 10000

/-- `Math.hypot(x, y)`. -/
noncomputable def hypotR (x y : ℝ) : ℝ := Real.sqrt (x ^ 2 + y ^ 2)

/-- The `front_direction` the client puts into the job payload (app.js lines
499-500): divide by `Math.hypot(...) || 1`, then `toFixed(4)` each
component. -/
noncomputable def payloadFrontDirection (v : Pt) : ℝ × ℝ :=
  let n : ℝ := if hypotR (v.x : ℝ) (v.y : ℝ) = 0 then 1 else hypotR (v.x : ℝ) (v.y : ℝ)
  (jsToFixed4R ((v.x : ℝ) / n), jsToFixed4R ((v.y : ℝ) / n))

/-- The POST `/jobs` body assembled by `handleJob` (app.js lines 488-500). -/
structure JobPayload where
  address : String
  dxf_url : String
  config : JobConfig
  footprint_points : List Pt
  front_direction : ℝ × ℝ

/-- `handleJob` (app.js lines 476-519).  `respond` is the server's answer to
the POST `/jobs` request.  Returns the new state and the payload that was
POSTed, if any. -/
noncomputable def handleJobStep (s : ClientState) (form : JobForm)
    (respond : JobPayload → Except String JobInfo) :
    ClientState × Option JobPayload :=
  match form.dxf with
  | none => (s, none)
  | some fileUrl =>
      if s.footprintWorld.length < 3 || s.frontVector.isNone then (s, none)
      else
        match s.frontVector with
        | none => (s, none)
        | some v =>
            let payload : JobPayload :=
              { address := form.address,
                dxf_url := fileUrl,
                config := form.config,
                footprint_points :=
                  s.footprintWorld.map (fun p => ⟨toFixed3q p.x, toFixed3q p.y⟩),
                front_direction := payloadFrontDirection v }
            match respond payload with
            | .error e =>
                ({ s with statusText := "Job request failed: " ++ e }, some payload)
            | .ok job =>
                ({ s with resultBox := some job,
                          statusText := "Job " ++ job.id ++ " queued.",
                          jobHistory := historySet job.id job.status s.jobHistory,
                          pollTimer := some job.id }, some payload)

/-! ### The polling loop (`pollJob`, app.js lines 521-538) -/

/-- The membership test of `pollJob`:
`['queued', 'running'].includes(job.status)` decides whether another poll is
scheduled. -/
def pollContinues (status : String) : Bool :=
  ["queued", "running"].contains status

/-- The three terminal states of the job state machine (spec §4.2). -/
def terminalStates : List String := ["succeeded", "failed", "cancelled"]

def isTerminal (status : String) : Bool := terminalStates.contains status

/-- The poll loop for one job id, driven by the statuses the server reports:
poll 0 is the initial call from `handleJob`; poll `n + 1` happens exactly
when poll `n` happened and its observed status passed `pollContinues`
(the `setTimeout` rescheduling in app.js lines 532-534). -/
def pollIssued (statuses : ℕ → String) : ℕ → Bool
  | 0 => true
  | n + 1 => pollIssued statuses n && pollContinues (statuses n)

/-! ### Server-side job submission.

The FastAPI backend of this repository is not present under src/ (only the
static client and READMEs are), so the `submit` operation is modelled from
the spec. -/

/-- Proper crossing of segments (a,b) and (c,d): each segment's endpoints lie
strictly on opposite sides of the other's supporting line. -/
def properSegCross (a b c d : Pt) : Bool :=
  decide (orient a b c * orient a b d < 0) && decide (orient c d a * orient c d b < 0)

/-- The edges of the closed polygon on `pts` (each vertex to its cyclic
successor). -/
def polyEdges (pts : List Pt) : List (Pt × Pt) :=
  pts.zip (pts.drop 1 ++ pts.take 1)

/-- Check edge `e` against every edge at least two positions further along
the list (skipping the adjacent successor), then recurse. -/
def crossesLater : List (Pt × Pt) → Bool
  | [] => false
  | e :: rest =>
      (rest.drop 1).any (fun f => properSegCross e.1 e.2 f.1 f.2) || crossesLater rest

/-- A closed polygon self-intersects when two non-adjacent edges (edges
sharing no endpoint in the cyclic edge order, so skipping each edge's
successor and, for the first edge, also the final closing edge) cross
properly. -/
def selfIntersects (pts : List Pt) : Bool :=
  match polyEdges pts with
  | [] => false
  | e0 :: rest =>
      ((rest.drop 1).dropLast).any (fun f => properSegCross e0.1 e0.2 f.1 f.2)
        || crossesLater rest

structure JobSpec where
  address : String
  dxf_url : String
  footprint_points : List Pt
  front_direction : Pt

inductive JobError where
  | invalidJobSpec
deriving DecidableEq

structure JobRec where
  id : String
  status : String
  spec : JobSpec

/-- Modelled from the spec: the backend `submit(spec)` operation (spec §4.2)
is not under src/.  It validates `footprint_points` (at least 3 vertices,
simple polygon) and `front_direction` (non-zero); on validation failure it
fails with `InvalidJobSpec` before any state is created, so the registry is
returned unchanged and no Job Record exists; otherwise it creates a Job
Record in `queued`. -/
def submit (spec : JobSpec) (freshId : String) (reg : List JobRec) :
    Except JobError String × List JobRec :=
  if spec.footprint_points.length < 3 || selfIntersects spec.footprint_points
      || decide (spec.front_direction = ⟨0, 0⟩) then
    (.error .invalidJobSpec, reg)
  else
    (.ok freshId, reg ++ [⟨freshId, "queued", spec⟩])

/-- `list()`: snapshot of all known jobs. -/
def listJobs (reg : List JobRec) : List JobRec := reg

/-! ### The shrink-wrap fitter.

Modelled from the spec: the geometry fitter (spec §4.1) runs server-side and
is not under src/.  The spec works with `u = normalize(P1 - P0)`,
`v = rot90(u)` and local coordinates `(su, sv)`; here the local coordinates
are carried in the scale `su / |P1 - P0|` (i.e. as the rational
`dot(p - P0, u') / dot(u', u')` for the unnormalized `u' = P1 - P0`), which
defines the same rectangle and the same world-space corners
`P0 + su*u + sv*v = P0 + tu*u' + tv*v'` while staying inside ℚ. -/

def fitVerts (geometry : List (List Pt)) : List Pt := geometry.flatten

/-- The (unnormalized) orientation edge `P1 - P0` (spec §4.1 step 1). -/
def fitU (P0 P1 : Pt) : Pt := subP P1 P0

/-- The perpendicular axis, oriented so that P2 projects non-negatively
(spec §4.1 step 2: "project P2 to determine the rectangle's extent sign
along v"). -/
def fitV (P0 P1 P2 : Pt) : Pt :=
  let w := rot90 (fitU P0 P1)
  if orient P0 P1 P2 < 0 then smulP (-1) w else w

/-- Scaled local u-coordinate of `p` (spec §4.1 step 2). -/
def fitTu (P0 P1 : Pt) (p : Pt) : ℚ :=
  dotP (subP p P0) (fitU P0 P1) / dotP (fitU P0 P1) (fitU P0 P1)

/-- Scaled local v-coordinate of `p` (spec §4.1 step 2). -/
def fitTv (P0 P1 P2 : Pt) (p : Pt) : ℚ :=
  dotP (subP p P0) (fitV P0 P1 P2) / dotP (fitV P0 P1 P2) (fitV P0 P1 P2)

/-- `su_min` over all polyline vertices (spec §4.1 step 3), total reduction. -/
def fitTuMin (P0 P1 : Pt) (geometry : List (List Pt)) : ℚ :=
  jsMin ((fitVerts geometry).map (fitTu P0 P1))

def fitTuMax (P0 P1 : Pt) (geometry : List (List Pt)) : ℚ :=
  jsMax ((fitVerts geometry).map (fitTu P0 P1))

def fitTvMin (P0 P1 P2 : Pt) (geometry : List (List Pt)) : ℚ :=
  jsMin ((fitVerts geometry).map (fitTv P0 P1 P2))

def fitTvMax (P0 P1 P2 : Pt) (geometry : List (List Pt)) : ℚ :=
  jsMax ((fitVerts geometry).map (fitTv P0 P1 P2))

/-- `world(su, sv) = P0 + su*u + sv*v` (spec §4.1 step 4), in the scaled
coordinates. -/
def fitCorner (P0 u v : Pt) (a b : ℚ) : Pt :=
  addP P0 (addP (smulP a u) (smulP b v))

/-- The four footprint corners, counter-clockwise from `(su_min, sv_min)`
(spec §4.1 step 4). -/
def fitCorners (P0 P1 P2 : Pt) (geometry : List (List Pt)) : List Pt :=
  let u := fitU P0 P1
  let v := fitV P0 P1 P2
  let a0 := fitTuMin P0 P1 geometry
  let a1 := fitTuMax P0 P1 geometry
  let b0 := fitTvMin P0 P1 P2 geometry
  let b1 := fitTvMax P0 P1 P2 geometry
  [fitCorner P0 u v a0 b0, fitCorner P0 u v a1 b0,
   fitCorner P0 u v a1 b1, fitCorner P0 u v a0 b1]

def clampQ (x lo hi : ℚ) : ℚ := max lo (min hi x)

/-- `front_origin`: F0's projection onto the nearer of the two edges parallel
to u, clamped to the edge segment (spec §4.1 step 5; the nearest-edge policy
is the documented design choice of spec §9). -/
def fitFrontOrigin (P0 P1 P2 F0 : Pt) (geometry : List (List Pt)) : Pt :=
  let a := clampQ (fitTu P0 P1 F0) (fitTuMin P0 P1 geometry) (fitTuMax P0 P1 geometry)
  let tvF := fitTv P0 P1 P2 F0
  let b0 := fitTvMin P0 P1 P2 geometry
  let b1 := fitTvMax P0 P1 P2 geometry
  let b := if |tvF - b0| ≤ |b1 - tvF| then b0 else b1
  fitCorner P0 (fitU P0 P1) (fitV P0 P1 P2) a b

/-- `normalize(d)` over the reals. -/
noncomputable def normalizeR (d : Pt) : ℝ × ℝ :=
  let len := hypotR (d.x : ℝ) (d.y : ℝ)
  ((d.x : ℝ) / len, (d.y : ℝ) / len)

structure FitResult where
  footprint_points : List Pt
  front_origin : Pt
  front_direction : ℝ × ℝ

/-- Modelled from the spec: `fit(rectangle_points, front_points, geometry)`
(spec §4.1).  Fails (InvalidGeometryInput, rendered as `none`) when P0,P1,P2
are collinear (which subsumes non-distinctness and the zero-length `u`
normalize guard in exact arithmetic), when F0 = F1, or when the geometry has
no vertices to wrap. -/
noncomputable def fit (P0 P1 P2 F0 F1 : Pt) (geometry : List (List Pt)) :
    Option FitResult :=
  if orient P0 P1 P2 = 0 then none
  else if F0 = F1 then none
  else if fitVerts geometry = [] then none
  else
    some
      { footprint_points := fitCorners P0 P1 P2 geometry,
        front_origin := fitFrontOrigin P0 P1 P2 F0 geometry,
        front_direction := normalizeR (subP F1 F0) }

/-- `p` lies inside the (possibly degenerate) rectangle with corner list
`[c0, c1, c2, c3]`: its projections on the two edge directions at `c0` stay
within the edges. -/
def inRect4 (corners : List Pt) (p : Pt) : Prop :=
  match corners with
  | [c0, c1, _, c3] =>
      0 ≤ dotP (subP p c0) (subP c1 c0) ∧
      dotP (subP p c0) (subP c1 c0) ≤ dotP (subP c1 c0) (subP c1 c0) ∧
      0 ≤ dotP (subP p c0) (subP c3 c0) ∧
      dotP (subP p c0) (subP c3 c0) ≤ dotP (subP c3 c0) (subP c3 c0)
  | _ => False

/-- The cardinality invariant kept by the capture canvas: never more than 3
rectangle points, never more than 2 front points. -/
def capInv (s : ClientState) : Prop :=
  s.rectanglePoints.length ≤ 3 ∧ s.frontPoints.length ≤ 2

/-!
## Theorems
-/

/-! ### List fold helpers -/

theorem foldl_min_le_init (l : List ℚ) : ∀ a : ℚ, l.foldl min a ≤ a := by
  induction l with
  | nil => intro a; simp
  | cons c t ih =>
      intro a
      simpa using le_trans (ih (min a c)) (min_le_left a c)

theorem foldl_min_le_mem (l : List ℚ) : ∀ a b : ℚ, b ∈ l → l.foldl min a ≤ b := by
  induction l with
  | nil => intro a b hb; cases hb
  | cons c t ih =>
      intro a b hb
      rcases List.mem_cons.mp hb with h | h
      · subst h
        simpa using le_trans (foldl_min_le_init t (min a b)) (min_le_right a b)
      · simpa using ih (min a c) b h

theorem foldl_min_eq_or_mem (l : List ℚ) : ∀ a : ℚ, l.foldl min a = a ∨ l.foldl min a ∈ l := by
  induction l with
  | nil => intro a; left; rfl
  | cons c t ih =>
      intro a
      rcases ih (min a c) with h | h
      · rcases min_choice a c with hm | hm
        · left; simpa [hm] using h
        · right; simp only [List.foldl_cons]
          exact List.mem_cons.mpr (Or.inl (h.trans hm))
      · right
        exact List.mem_cons.mpr (Or.inr (by simpa using h))

theorem init_le_foldl_max (l : List ℚ) : ∀ a : ℚ, a ≤ l.foldl max a := by
  induction l with
  | nil => intro a; simp
  | cons c t ih =>
      intro a
      simpa using le_trans (le_max_left a c) (ih (max a c))

theorem mem_le_foldl_max (l : List ℚ) : ∀ a b : ℚ, b ∈ l → b ≤ l.foldl max a := by
  induction l with
  | nil => intro a b hb; cases hb
  | cons c t ih =>
      intro a b hb
      rcases List.mem_cons.mp hb with h | h
      · subst h
        simpa using le_trans (le_max_right a b) (init_le_foldl_max t (max a b))
      · simpa using ih (max a c) b h

theorem foldl_max_eq_or_mem (l : List ℚ) : ∀ a : ℚ, l.foldl max a = a ∨ l.foldl max a ∈ l := by
  induction l with
  | nil => intro a; left; rfl
  | cons c t ih =>
      intro a
      rcases ih (max a c) with h | h
      · rcases max_choice a c with hm | hm
        · left; simpa [hm] using h
        · right; simp only [List.foldl_cons]
          exact List.mem_cons.mpr (Or.inl (h.trans hm))
      · right
        exact List.mem_cons.mpr (Or.inr (by simpa using h))

theorem jsMin_le (l : List ℚ) (b : ℚ) (hb : b ∈ l) : jsMin l ≤ b := by
  cases l with
  | nil => cases hb
  | cons a r =>
      rcases List.mem_cons.mp hb with h | h
      · subst h; exact foldl_min_le_init r b
      · exact foldl_min_le_mem r a b h

theorem le_jsMax (l : List ℚ) (b : ℚ) (hb : b ∈ l) : b ≤ jsMax l := by
  cases l with
  | nil => cases hb
  | cons a r =>
      rcases List.mem_cons.mp hb with h | h
      · subst h; exact init_le_foldl_max r b
      · exact mem_le_foldl_max r a b h

theorem jsMin_mem (l : List ℚ) (hl : l ≠ []) : jsMin l ∈ l := by
  cases l with
  | nil => exact absurd rfl hl
  | cons a r =>
      rcases foldl_min_eq_or_mem r a with h | h
      · exact List.mem_cons.mpr (Or.inl (by simpa [jsMin] using h))
      · exact List.mem_cons.mpr (Or.inr (by simpa [jsMin] using h))

theorem jsMax_mem (l : List ℚ) (hl : l ≠ []) : jsMax l ∈ l := by
  cases l with
  | nil => exact absurd rfl hl
  | cons a r =>
      rcases foldl_max_eq_or_mem r a with h | h
      · exact List.mem_cons.mpr (Or.inl (by simpa [jsMax] using h))
      · exact List.mem_cons.mpr (Or.inr (by simpa [jsMax] using h))

/-! ### C8: canvasToWorld inverts worldToCanvas -/

/-- C8: `canvasToWorld` inverts `worldToCanvas` exactly over the rationals,
for any viewBox with nonzero scale, any canvas height, and any world point. -/
theorem canvasToWorld_worldToCanvas (vb : ViewBox) (H : ℚ) (p : Pt)
    (hs : vb.scale ≠ 0) :
    canvasToWorld vb H (worldToCanvas vb H p).x (worldToCanvas vb H p).y = p := by
  cases p with
  | mk px py =>
    simp only [worldToCanvas, canvasToWorld, Pt.mk.injEq]
    constructor
    · field_simp
    · field_simp

/-- Witness for C8 at a concrete viewBox and point. -/
theorem canvasToWorld_worldToCanvas_witness :
    (defaultViewBox.scale ≠ 0) ∧
      canvasToWorld defaultViewBox 400
        (worldToCanvas defaultViewBox 400 ⟨3, 7⟩).x
        (worldToCanvas defaultViewBox 400 ⟨3, 7⟩).y = ⟨3, 7⟩ :=
  ⟨by decide,
   canvasToWorld_worldToCanvas defaultViewBox 400 ⟨3, 7⟩ (by decide)⟩

/-! ### C9: recomputeViewBox encloses all tracked points -/

theorem mem_collectXs_of_path {paths : List (List Pt)} {fw : List Pt}
    {fo fv : Option Pt} {path : List Pt} {p : Pt}
    (hpath : path ∈ paths) (hp : p ∈ path) :
    p.x ∈ collectXs paths fw fo fv := by
  simp only [collectXs, List.mem_append, List.mem_flatten, List.mem_map]
  exact Or.inl (Or.inl ⟨path.map Pt.x, ⟨path, hpath, rfl⟩, List.mem_map.mpr ⟨p, hp, rfl⟩⟩)

theorem mem_collectYs_of_path {paths : List (List Pt)} {fw : List Pt}
    {fo fv : Option Pt} {path : List Pt} {p : Pt}
    (hpath : path ∈ paths) (hp : p ∈ path) :
    p.y ∈ collectYs paths fw fo fv := by
  simp only [collectYs, List.mem_append, List.mem_flatten, List.mem_map]
  exact Or.inl (Or.inl ⟨path.map Pt.y, ⟨path, hpath, rfl⟩, List.mem_map.mpr ⟨p, hp, rfl⟩⟩)

theorem mem_collectXs_of_fw {paths : List (List Pt)} {fw : List Pt}
    {fo fv : Option Pt} {p : Pt} (hp : p ∈ fw) :
    p.x ∈ collectXs paths fw fo fv := by
  simp only [collectXs, List.mem_append, List.mem_map]
  exact Or.inl (Or.inr ⟨p, hp, rfl⟩)

theorem mem_collectYs_of_fw {paths : List (List Pt)} {fw : List Pt}
    {fo fv : Option Pt} {p : Pt} (hp : p ∈ fw) :
    p.y ∈ collectYs paths fw fo fv := by
  simp only [collectYs, List.mem_append, List.mem_map]
  exact Or.inl (Or.inr ⟨p, hp, rfl⟩)

theorem mem_collectXs_of_front {paths : List (List Pt)} {fw : List Pt}
    {fo fv : Option Pt} {p : Pt} (hp : p ∈ frontPts fo fv) :
    p.x ∈ collectXs paths fw fo fv := by
  simp only [collectXs, List.mem_append, List.mem_map]
  exact Or.inr ⟨p, hp, rfl⟩

theorem mem_collectYs_of_front {paths : List (List Pt)} {fw : List Pt}
    {fo fv : Option Pt} {p : Pt} (hp : p ∈ frontPts fo fv) :
    p.y ∈ collectYs paths fw fo fv := by
  simp only [collectYs, List.mem_append, List.mem_map]
  exact Or.inr ⟨p, hp, rfl⟩

theorem collect_ne_nil_iff (paths : List (List Pt)) (fw : List Pt)
    (fo fv : Option Pt) :
    collectXs paths fw fo fv = [] ↔ (paths.flatten = [] ∧ fw = [] ∧ fo = none) := by
  have hflat : (paths.map (fun path => path.map Pt.x)).flatten = []
      ↔ paths.flatten = [] := by
    simp only [List.flatten_eq_nil_iff, List.mem_map]
    constructor
    · intro h l hl
      have := h (l.map Pt.x) ⟨l, hl, rfl⟩
      simpa [List.map_eq_nil_iff] using this
    · rintro h lx ⟨l, hl, rfl⟩
      simp [h l hl]
  cases fo with
  | none =>
      simp only [collectXs, frontPts, List.append_nil, List.append_eq_nil,
        List.map_eq_nil_iff, hflat]
      tauto
  | some o =>
      cases fv with
      | none => simp [collectXs, frontPts]
      | some v => simp [collectXs, frontPts]

theorem collectXs_length_eq (paths : List (List Pt)) (fw : List Pt)
    (fo fv : Option Pt) :
    (collectXs paths fw fo fv).length = (collectYs paths fw fo fv).length := by
  simp only [collectXs, collectYs, List.length_append, List.length_flatten,
    List.map_map, List.length_map, Function.comp_def]

theorem recomputeViewBox_eq_of_nonempty (W H : ℚ) (paths : List (List Pt))
    (fw : List Pt) (fo fv : Option Pt)
    (hne : collectXs paths fw fo fv ≠ []) :
    recomputeViewBox W H paths fw fo fv =
      ⟨jsMin (collectXs paths fw fo fv), jsMax (collectXs paths fw fo fv),
       jsMin (collectYs paths fw fo fv), jsMax (collectYs paths fw fo fv),
       min ((W - padding * 2) /
              max 1 (jsMax (collectXs paths fw fo fv) - jsMin (collectXs paths fw fo fv)))
           ((H - padding * 2) /
              max 1 (jsMax (collectYs paths fw fo fv) - jsMin (collectYs paths fw fo fv)))⟩ := by
  simp [recomputeViewBox, List.isEmpty_iff, hne]

/-- C9: after `recomputeViewBox`, every tracked vertex (path vertices,
footprint vertices, front origin and front origin + front vector when
present) lies inside the viewBox, the bounds are the exact minima/maxima over
the collected coordinates, and with no tracked points at all the viewBox is
the default `{minX: -50, maxX: 50, minY: -50, maxY: 50, scale: 2}`. -/
theorem recomputeViewBox_encloses (W H : ℚ) (paths : List (List Pt))
    (fw : List Pt) (fo fv : Option Pt) :
    ((paths.flatten = [] ∧ fw = [] ∧ fo = none) →
        recomputeViewBox W H paths fw fo fv = ⟨-50, 50, -50, 50, 2⟩) ∧
    (∀ path ∈ paths, ∀ p ∈ path,
        inViewBox (recomputeViewBox W H paths fw fo fv) p) ∧
    (∀ p ∈ fw, inViewBox (recomputeViewBox W H paths fw fo fv) p) ∧
    (∀ o : Pt, fo = some o →
        inViewBox (recomputeViewBox W H paths fw fo fv) o ∧
        (∀ v : Pt, fv = some v →
          inViewBox (recomputeViewBox W H paths fw fo fv) (addP o v))) ∧
    (collectXs paths fw fo fv ≠ [] →
        (recomputeViewBox W H paths fw fo fv).minX ∈ collectXs paths fw fo fv ∧
        (recomputeViewBox W H paths fw fo fv).maxX ∈ collectXs paths fw fo fv ∧
        (recomputeViewBox W H paths fw fo fv).minY ∈ collectYs paths fw fo fv ∧
        (recomputeViewBox W H paths fw fo fv).maxY ∈ collectYs paths fw fo fv) := by
  have hbound : ∀ p : Pt, p.x ∈ collectXs paths fw fo fv →
      p.y ∈ collectYs paths fw fo fv →
      inViewBox (recomputeViewBox W H paths fw fo fv) p := by
    intro p hx hy
    have hne : collectXs paths fw fo fv ≠ [] := by
      intro h; rw [h] at hx; cases hx
    rw [recomputeViewBox_eq_of_nonempty W H paths fw fo fv hne]
    exact ⟨jsMin_le _ _ hx, le_jsMax _ _ hx, jsMin_le _ _ hy, le_jsMax _ _ hy⟩
  refine ⟨?_, ?_, ?_, ?_, ?_⟩
  · intro hempty
    have hx : collectXs paths fw fo fv = [] :=
      (collect_ne_nil_iff paths fw fo fv).mpr hempty
    simp [recomputeViewBox, hx, defaultViewBox]
  · intro path hpath p hp
    exact hbound p (mem_collectXs_of_path hpath hp) (mem_collectYs_of_path hpath hp)
  · intro p hp
    exact hbound p (mem_collectXs_of_fw hp) (mem_collectYs_of_fw hp)
  · intro o ho
    subst ho
    have hofront : o ∈ frontPts (some o) fv := by
      cases fv <;> simp [frontPts]
    refine ⟨hbound o (mem_collectXs_of_front hofront) (mem_collectYs_of_front hofront), ?_⟩
    intro v hv
    subst hv
    have hvfront : addP o v ∈ frontPts (some o) (some v) := by
      simp [frontPts]
    exact hbound (addP o v) (mem_collectXs_of_front hvfront) (mem_collectYs_of_front hvfront)
  · intro hne
    rw [recomputeViewBox_eq_of_nonempty W H paths fw fo fv hne]
    have hy : collectYs paths fw fo fv ≠ [] := by
      intro h
      apply hne
      have hlen := collectXs_length_eq paths fw fo fv
      rw [h] at hlen
      exact List.length_eq_zero.mp (by simpa using hlen)
    exact ⟨jsMin_mem _ hne, jsMax_mem _ hne, jsMin_mem _ hy, jsMax_mem _ hy⟩

/-- Witness for C9 at a concrete geometry. -/
theorem recomputeViewBox_encloses_witness :
    inViewBox (recomputeViewBox 400 400 [[⟨0, 0⟩, ⟨10, 4⟩]] [] none none) ⟨10, 4⟩ :=
  (recomputeViewBox_encloses 400 400 [[⟨0, 0⟩, ⟨10, 4⟩]] [] none none).2.1
    [⟨0, 0⟩, ⟨10, 4⟩] (by decide) ⟨10, 4⟩ (by decide)

/-! ### The handleJob guard (shared by C1 and C10) -/

theorem handleJob_guard_none (s : ClientState) (form : JobForm)
    (respond : JobPayload → Except String JobInfo)
    (h : s.footprintWorld.length < 3 ∨ s.frontVector = none) :
    handleJobStep s form respond = (s, none) := by
  cases hd : form.dxf with
  | none => simp [handleJobStep, hd]
  | some url =>
      have hguard : (s.footprintWorld.length < 3 || s.frontVector.isNone) = true := by
        rcases h with h | h
        · simp [h]
        · simp [h]
      simp [handleJobStep, hd, hguard]

/-! ### C10: loadGeometry invalidates any previous capture -/

/-- C10: after every successful `loadGeometry`, the captured shrink-wrap
state is fully cleared, `readyForJob()` is false, the start button is
disabled, and `handleJob` cannot issue a POST /jobs request until a new
shrink-wrap succeeds. -/
theorem loadGeometry_invalidates (W H : ℚ) (s : ClientState)
    (paths : List (List Pt)) :
    (loadGeometryStep W H s paths).rectanglePoints = [] ∧
    (loadGeometryStep W H s paths).frontPoints = [] ∧
    (loadGeometryStep W H s paths).footprintWorld = [] ∧
    (loadGeometryStep W H s paths).frontOrigin = none ∧
    (loadGeometryStep W H s paths).frontVector = none ∧
    (loadGeometryStep W H s paths).shrinkwrapReady = false ∧
    readyForJob (loadGeometryStep W H s paths) = false ∧
    (loadGeometryStep W H s paths).startDisabled = true ∧
    (∀ (form : JobForm) (respond : JobPayload → Except String JobInfo),
        (handleJobStep (loadGeometryStep W H s paths) form respond).2 = none) := by
  refine ⟨rfl, rfl, rfl, rfl, rfl, rfl, ?_, ?_, ?_⟩
  · simp [loadGeometryStep, updateStartButton, readyForJob]
  · simp [loadGeometryStep, updateStartButton, readyForJob]
  · intro form respond
    have h := handleJob_guard_none (loadGeometryStep W H s paths) form respond
      (Or.inl (by simp [loadGeometryStep, updateStartButton]))
    rw [h]

/-! ### C3: shrink-wrap failure leaves the captured state unchanged -/

/-- C3: if the shrink-wrap fetch of the `applyCapture` handler throws or
returns non-ok (both rendered as an `.error` response; the handler also
bails out before issuing the request when its guards fail), then
`footprintWorld`, `frontOrigin`, `frontVector` and `shrinkwrapReady` keep
exactly their previous values, and neither `readyForJob` nor the start
button changes — no job becomes submittable as a result of the failed
call. -/
theorem applyCapture_error_atomic (W H : ℚ) (s : ClientState)
    (respond : SwRequest → Except String SwResult) (e : String)
    (herr : respond ⟨s.rectanglePoints, s.frontPoints⟩ = .error e) :
    (applyCaptureStep W H s respond).1.footprintWorld = s.footprintWorld ∧
    (applyCaptureStep W H s respond).1.frontOrigin = s.frontOrigin ∧
    (applyCaptureStep W H s respond).1.frontVector = s.frontVector ∧
    (applyCaptureStep W H s respond).1.shrinkwrapReady = s.shrinkwrapReady ∧
    readyForJob (applyCaptureStep W H s respond).1 = readyForJob s ∧
    (applyCaptureStep W H s respond).1.startDisabled = s.startDisabled := by
  by_cases h1 : s.currentFilename.isNone
  · simp [applyCaptureStep, h1]
  · by_cases h2 : s.rectanglePoints.length < 3
    · simp [applyCaptureStep, h1, h2]
    · by_cases h3 : s.frontPoints.length < 2
      · simp [applyCaptureStep, h1, h2, h3]
      · simp [applyCaptureStep, h1, h2, h3, herr, readyForJob]

/-- Witness for C3: a failing shrink-wrap call on the initial state changes
nothing. -/
theorem applyCapture_error_atomic_witness :
    (applyCaptureStep 400 400 initState (fun _ => .error "boom")).1.footprintWorld
        = initState.footprintWorld ∧
    (applyCaptureStep 400 400 initState (fun _ => .error "boom")).1.frontOrigin
        = initState.frontOrigin ∧
    (applyCaptureStep 400 400 initState (fun _ => .error "boom")).1.frontVector
        = initState.frontVector ∧
    (applyCaptureStep 400 400 initState (fun _ => .error "boom")).1.shrinkwrapReady
        = initState.shrinkwrapReady ∧
    readyForJob (applyCaptureStep 400 400 initState (fun _ => .error "boom")).1
        = readyForJob initState ∧
    (applyCaptureStep 400 400 initState (fun _ => .error "boom")).1.startDisabled
        = initState.startDisabled :=
  applyCapture_error_atomic 400 400 initState (fun _ => .error "boom") "boom" rfl

/-! ### C2: request cardinalities -/

theorem capInv_initState : capInv initState := by
  constructor <;> simp [initState]

theorem capInv_updateStartButton (s : ClientState) (h : capInv s) :
    capInv (updateStartButton s) := h

theorem capInv_step (W H : ℚ) (s : ClientState) (e : ClientEvent)
    (h : capInv s) : capInv (step W H s e).1 := by
  obtain ⟨hr, hf⟩ := h
  cases e with
  | canvasClick rawX rawY =>
      simp only [step, canvasClickStep]
      cases s.captureMode with
      | footprint =>
          by_cases h3 : 3 ≤ s.rectanglePoints.length
          · exact ⟨by simp [h3], by simpa using hf⟩
          · refine ⟨by simp [h3]; omega, by simpa using hf⟩
      | front =>
          by_cases h2 : 2 ≤ s.frontPoints.length
          · exact ⟨by simpa using hr, by simp [h2]⟩
          · refine ⟨by simpa using hr, by simp [h2]; omega⟩
  | footprintMode => exact ⟨hr, hf⟩
  | frontMode => exact ⟨hr, hf⟩
  | clearCanvas => exact ⟨by simp [step, clearCanvasStep, updateStartButton],
      by simp [step, clearCanvasStep, updateStartButton]⟩
  | applyCapture respond =>
      simp only [step, applyCaptureStep]
      by_cases h1 : s.currentFilename.isNone
      · simp only [h1, if_true]; exact ⟨hr, hf⟩
      · simp only [h1, if_false]
        by_cases h2 : s.rectanglePoints.length < 3
        · simp only [h2, if_true]; exact ⟨hr, hf⟩
        · simp only [h2, if_false]
          by_cases h3 : s.frontPoints.length < 2
          · simp only [h3, if_true]; exact ⟨hr, hf⟩
          · simp only [h3, if_false]
            cases respond ⟨s.rectanglePoints, s.frontPoints⟩ with
            | error e => exact ⟨hr, hf⟩
            | ok data =>
                exact ⟨by simp [updateStartButton], by simp [updateStartButton]⟩
  | openCapture filename paths =>
      exact ⟨by simp [step, openCaptureStep, loadGeometryStep, updateStartButton],
             by simp [step, openCaptureStep, loadGeometryStep, updateStartButton]⟩

theorem capInv_runEvents (W H : ℚ) (events : List ClientEvent) :
    ∀ s : ClientState, capInv s → capInv (runEvents W H s events) := by
  induction events with
  | nil => intro s h; exact h
  | cons e rest ih =>
      intro s h
      exact ih (step W H s e).1 (capInv_step W H s e h)

/-- C2 (amended): after any event sequence from the initial state,
`rectanglePoints.length ≤ 3` and `frontPoints.length ≤ 2` always hold, and
the `applyCapture` handler issues the shrink-wrap request only when the
request carries exactly 3 rectangle points and exactly 2 front points.
(The request's points need not be distinct — see the counterexample.) -/
theorem shrinkwrap_request_cardinalities (W H : ℚ) :
    (∀ events : List ClientEvent, capInv (runEvents W H initState events)) ∧
    (∀ (s : ClientState) (respond : SwRequest → Except String SwResult)
        (req : SwRequest), capInv s →
        (applyCaptureStep W H s respond).2 = some req →
        req.rectangle_points.length = 3 ∧ req.front_points.length = 2) := by
  constructor
  · intro events
    exact capInv_runEvents W H events initState capInv_initState
  · intro s respond req hinv hreq
    obtain ⟨hr, hf⟩ := hinv
    by_cases h1 : s.currentFilename.isNone
    · simp [applyCaptureStep, h1] at hreq
    · by_cases h2 : s.rectanglePoints.length < 3
      · simp [applyCaptureStep, h1, h2] at hreq
      · by_cases h3 : s.frontPoints.length < 2
        · simp [applyCaptureStep, h1, h2, h3] at hreq
        · have hreq' : req = ⟨s.rectanglePoints, s.frontPoints⟩ := by
            simp only [applyCaptureStep, h1, h2, h3, if_false] at hreq
            cases hresp : respond ⟨s.rectanglePoints, s.frontPoints⟩ with
            | error e => rw [hresp] at hreq; exact (Option.some_inj.mp hreq).symm
            | ok data => rw [hresp] at hreq; exact (Option.some_inj.mp hreq).symm
          subst hreq'
          constructor
          · show s.rectanglePoints.length = 3
            omega
          · show s.frontPoints.length = 2
            omega

/-- Witness for C2 (amended): a concrete full capture issues a request with
exactly 3 and 2 points. -/
theorem shrinkwrap_request_cardinalities_witness :
    capInv (runEvents 400 400 initState [.canvasClick 100 100]) ∧
    ((⟨[⟨0, 0⟩, ⟨1, 0⟩, ⟨0, 1⟩], [⟨0, 0⟩, ⟨1, 1⟩]⟩ : SwRequest).rectangle_points.length = 3 ∧
      (⟨[⟨0, 0⟩, ⟨1, 0⟩, ⟨0, 1⟩], [⟨0, 0⟩, ⟨1, 1⟩]⟩ : SwRequest).front_points.length = 2) :=
  ⟨(shrinkwrap_request_cardinalities 400 400).1 [.canvasClick 100 100],
   (shrinkwrap_request_cardinalities 400 400).2
      { initState with
          currentFilename := some "f",
          rectanglePoints := [⟨0, 0⟩, ⟨1, 0⟩, ⟨0, 1⟩],
          frontPoints := [⟨0, 0⟩, ⟨1, 1⟩] }
      (fun _ => .error "boom") _ (by constructor <;> decide) (by decide)⟩

/-- Counterexample for C2 as stated: three clicks at the same canvas position
produce a shrink-wrap request whose three rectangle points coincide, so the
issued request does not carry 3 distinct points. -/
theorem shrinkwrap_request_distinctness_counterexample :
    (step 400 400
        (runEvents 400 400 initState
          [.openCapture "f" [], .canvasClick 100 100, .canvasClick 100 100,
           .canvasClick 100 100, .frontMode, .canvasClick 50 50, .canvasClick 60 50])
        (.applyCapture (fun _ => .error "boom"))).2 =
      some ⟨[⟨-10, 90⟩, ⟨-10, 90⟩, ⟨-10, 90⟩], [⟨-35, 115⟩, ⟨-30, 115⟩]⟩ ∧
    ¬ ([(⟨-10, 90⟩ : Pt), ⟨-10, 90⟩, ⟨-10, 90⟩].Nodup) := by
  constructor
  · norm_num [runEvents, step, openCaptureStep, loadGeometryStep, updateStartButton,
      readyForJob, canvasClickStep, applyCaptureStep, recomputeViewBox, collectXs,
      collectYs, frontPts, initState, defaultViewBox, canvasToWorld, padding,
      Pt.mk.injEq]
  · simp [List.Nodup]

/-! ### C1: invalid submissions are rejected before any state is created -/

/-- C1: `handleJob` returns without performing the POST /jobs fetch whenever
`footprintWorld.length < 3` or `frontVector` is null, leaving the whole
client state (in particular `jobHistory`, `resultBox` and the poll timer)
unchanged; and the backend `submit` (modelled from the spec) rejects a
footprint with fewer than 3 points or a self-intersecting footprint with
`InvalidJobSpec`, creating no Job Record, so a subsequent `list()` shows no
new entry. -/
theorem submit_rejects_invalid :
    (∀ (s : ClientState) (form : JobForm)
        (respond : JobPayload → Except String JobInfo),
        s.footprintWorld.length < 3 ∨ s.frontVector = none →
        handleJobStep s form respond = (s, none)) ∧
    (∀ (spec : JobSpec) (freshId : String) (reg : List JobRec),
        spec.footprint_points.length < 3 ∨ selfIntersects spec.footprint_points = true →
        submit spec freshId reg = (.error .invalidJobSpec, reg) ∧
        listJobs (submit spec freshId reg).2 = listJobs reg) := by
  constructor
  · exact handleJob_guard_none
  · intro spec freshId reg h
    have hcond : (spec.footprint_points.length < 3
        || selfIntersects spec.footprint_points
        || decide (spec.front_direction = ⟨0, 0⟩)) = true := by
      rcases h with h | h
      · simp [h]
      · simp [h]
    refine ⟨by simp [submit, hcond], by simp [submit, hcond, listJobs]⟩

/-- Witness for C1: an empty footprint is rejected client-side, and a
self-intersecting (bow-tie) footprint is rejected by `submit` with the
registry unchanged. -/
theorem submit_rejects_invalid_witness :
    handleJobStep initState ⟨"", none, ⟨1, 80, 15, 1⟩⟩ (fun _ => .error "x")
        = (initState, none) ∧
    submit ⟨"addr", "url", [⟨0, 0⟩, ⟨2, 2⟩, ⟨2, 0⟩, ⟨0, 2⟩], ⟨1, 0⟩⟩ "j1" []
        = (.error .invalidJobSpec, []) :=
  ⟨submit_rejects_invalid.1 initState ⟨"", none, ⟨1, 80, 15, 1⟩⟩ (fun _ => .error "x")
      (Or.inl (by decide)),
   (submit_rejects_invalid.2 ⟨"addr", "url", [⟨0, 0⟩, ⟨2, 2⟩, ⟨2, 0⟩, ⟨0, 2⟩], ⟨1, 0⟩⟩
      "j1" []
      (Or.inr (by norm_num [selfIntersects, polyEdges, crossesLater,
        properSegCross, orient]))).1⟩

/-! ### C5: polling stops exactly at terminal states -/

theorem isTerminal_not_pollContinues (st : String)
    (h : isTerminal st = true) : pollContinues st = false := by
  simp only [isTerminal, terminalStates, List.contains, List.elem_iff,
    List.mem_cons, List.not_mem_nil, or_false] at h
  rcases h with h | h | h <;> subst h <;> decide

/-- C5: the poll loop schedules a follow-up poll iff the most recently
observed status is `queued` or `running` (the exact membership test of
`pollJob`), and once a terminal status (`succeeded`, `failed`, `cancelled`)
is observed at poll `k`, no later poll is ever issued for that job. -/
theorem poll_stops_at_terminal :
    (∀ st : String, pollContinues st = true ↔ (st = "queued" ∨ st = "running")) ∧
    (∀ (statuses : ℕ → String) (n : ℕ),
        pollIssued statuses (n + 1) = (pollIssued statuses n && pollContinues (statuses n))) ∧
    (∀ (statuses : ℕ → String) (k n : ℕ),
        isTerminal (statuses k) = true → k < n → pollIssued statuses n = false) := by
  refine ⟨?_, ?_, ?_⟩
  · intro st
    simp [pollContinues, List.contains, List.elem_iff]
  · intro statuses n; rfl
  · intro statuses k n hterm hlt
    induction n with
    | zero => omega
    | succ m ih =>
        by_cases hkm : k = m
        · subst hkm
          simp [pollIssued, isTerminal_not_pollContinues _ hterm]
        · have hlt' : k < m := by omega
          simp [pollIssued, ih hlt']

/-- Witness for C5: after observing `succeeded` at poll 0, poll 1 is not
issued. -/
theorem poll_stops_at_terminal_witness :
    pollIssued (fun _ => "succeeded") 1 = false :=
  poll_stops_at_terminal.2.2 (fun _ => "succeeded") 0 1 (by decide) (by decide)

/-! ### C4: unit length of the submitted front direction -/

theorem hypotR_eq_complexAbs (x y : ℝ) : hypotR x y = Complex.abs ⟨x, y⟩ := by
  rw [hypotR, Complex.abs_apply]
  congr 1
  simp only [Complex.normSq_mk]
  ring

theorem hypotR_sub_le (a b c d : ℝ) :
    |hypotR a b - hypotR c d| ≤ hypotR (a - c) (b - d) := by
  rw [hypotR_eq_complexAbs, hypotR_eq_complexAbs, hypotR_eq_complexAbs]
  have hsub : (⟨a, b⟩ - ⟨c, d⟩ : ℂ) = ⟨a - c, b - d⟩ := by
    apply Complex.ext <;> simp
  rw [← hsub]
  exact Complex.abs.abs_abv_sub_le_abv_sub ⟨a, b⟩ ⟨c, d⟩

theorem jsToFixed4R_close (x : ℝ) : |jsToFixed4R x - x| ≤ 1 / 20000 := by
  have h : |x * 10000 - (round (x * 10000) : ℤ)| ≤ 1 / 2 := abs_sub_round (x * 10000)
  rw [jsToFixed4R]
  have heq : ((round (x * 10000) : ℤ) : ℝ) / 10000 - x
      = -((x * 10000 - (round (x * 10000) : ℤ)) / 10000) := by ring
  rw [heq, abs_neg, abs_div]
  rw [show |(10000 : ℝ)| = 10000 by norm_num]
  linarith

theorem hypotR_le_bound {e1 e2 b c : ℝ} (h1 : |e1| ≤ b) (h2 : |e2| ≤ b)
    (hc : 0 ≤ c) (hbc : 2 * b ^ 2 ≤ c ^ 2) : hypotR e1 e2 ≤ c := by
  have he1 : e1 ^ 2 ≤ b ^ 2 := sq_le_sq' (abs_le.mp h1).1 (abs_le.mp h1).2
  have he2 : e2 ^ 2 ≤ b ^ 2 := sq_le_sq' (abs_le.mp h2).1 (abs_le.mp h2).2
  rw [hypotR]
  calc Real.sqrt (e1 ^ 2 + e2 ^ 2) ≤ Real.sqrt (c ^ 2) :=
        Real.sqrt_le_sqrt (by linarith)
    _ = c := Real.sqrt_sq hc

theorem hypotR_pos_of_ne (v : Pt) (hv : v ≠ ⟨0, 0⟩) :
    0 < hypotR (v.x : ℝ) (v.y : ℝ) := by
  apply Real.sqrt_pos.mpr
  have hne : (v.x : ℝ) ≠ 0 ∨ (v.y : ℝ) ≠ 0 := by
    by_contra hcon
    push_neg at hcon
    apply hv
    cases v with
    | mk vx vy =>
        simp only [Rat.cast_eq_zero] at hcon
        simp [Pt.mk.injEq, hcon.1, hcon.2]
  rcases hne with h | h
  · have := pow_two_pos_of_ne_zero h
    nlinarith [sq_nonneg ((v.y : ℝ))]
  · have := pow_two_pos_of_ne_zero h
    nlinarith [sq_nonneg ((v.x : ℝ))]

theorem hypotR_div_self (x y : ℝ) (h : 0 < hypotR x y) :
    hypotR (x / hypotR x y) (y / hypotR x y) = 1 := by
  have hA : (0 : ℝ) < x ^ 2 + y ^ 2 := by
    rw [hypotR] at h
    exact Real.sqrt_pos.mp h
  have hn2 : hypotR x y ^ 2 = x ^ 2 + y ^ 2 := by
    rw [hypotR]
    exact Real.sq_sqrt (le_of_lt hA)
  rw [hypotR]
  have hexp : (x / hypotR x y) ^ 2 + (y / hypotR x y) ^ 2
      = (x ^ 2 + y ^ 2) / hypotR x y ^ 2 := by ring
  rw [hexp, hn2, div_self (ne_of_gt hA), Real.sqrt_one]

theorem normalizeR_unit (d : Pt) (hd : d ≠ ⟨0, 0⟩) :
    hypotR (normalizeR d).1 (normalizeR d).2 = 1 := by
  rw [normalizeR]
  exact hypotR_div_self _ _ (hypotR_pos_of_ne d hd)

/-- C4 (amended): the `front_direction` the client submits — the captured
vector divided by `Math.hypot(...) || 1` and rounded with `toFixed(4)` — has
Euclidean length 1 within tolerance `1e-4` (not `1e-6`: the per-component
`toFixed(4)` rounding alone can move the length by up to `√2/2·1e-4`, see
the counterexample) for every nonzero captured vector; and the
`front_direction` returned by the (spec-modelled) `fit` has unit length
within the spec's `1e-6`. -/
theorem payload_front_direction_near_unit :
    (∀ v : Pt, v ≠ ⟨0, 0⟩ →
        |hypotR (payloadFrontDirection v).1 (payloadFrontDirection v).2 - 1|
          ≤ 1 / 10000) ∧
    (∀ (P0 P1 P2 F0 F1 : Pt) (geometry : List (List Pt)),
        orient P0 P1 P2 ≠ 0 → F0 ≠ F1 → fitVerts geometry ≠ [] →
        ∃ r, fit P0 P1 P2 F0 F1 geometry = some r ∧
          |hypotR r.front_direction.1 r.front_direction.2 - 1| ≤ 1 / 1000000) := by
  constructor
  · intro v hv
    have hpos : 0 < hypotR (v.x : ℝ) (v.y : ℝ) := hypotR_pos_of_ne v hv
    have hne : hypotR (v.x : ℝ) (v.y : ℝ) ≠ 0 := ne_of_gt hpos
    have hpd : payloadFrontDirection v =
        (jsToFixed4R ((v.x : ℝ) / hypotR (v.x : ℝ) (v.y : ℝ)),
         jsToFixed4R ((v.y : ℝ) / hypotR (v.x : ℝ) (v.y : ℝ))) := by
      rw [payloadFrontDirection]
      simp [hne]
    rw [hpd]
    set u1 := (v.x : ℝ) / hypotR (v.x : ℝ) (v.y : ℝ) with hu1
    set u2 := (v.y : ℝ) / hypotR (v.x : ℝ) (v.y : ℝ) with hu2
    have hunit : hypotR u1 u2 = 1 := hypotR_div_self _ _ hpos
    have h1 : |jsToFixed4R u1 - u1| ≤ 1 / 20000 := jsToFixed4R_close u1
    have h2 : |jsToFixed4R u2 - u2| ≤ 1 / 20000 := jsToFixed4R_close u2
    have htri := hypotR_sub_le (jsToFixed4R u1) (jsToFixed4R u2) u1 u2
    have hbound : hypotR (jsToFixed4R u1 - u1) (jsToFixed4R u2 - u2) ≤ 1 / 10000 :=
      hypotR_le_bound h1 h2 (by norm_num) (by norm_num)
    calc |hypotR (jsToFixed4R u1) (jsToFixed4R u2) - 1|
        = |hypotR (jsToFixed4R u1) (jsToFixed4R u2) - hypotR u1 u2| := by rw [hunit]
      _ ≤ hypotR (jsToFixed4R u1 - u1) (jsToFixed4R u2 - u2) := htri
      _ ≤ 1 / 10000 := hbound
  · intro P0 P1 P2 F0 F1 geometry hor hF hg
    refine ⟨{ footprint_points := fitCorners P0 P1 P2 geometry,
              front_origin := fitFrontOrigin P0 P1 P2 F0 geometry,
              front_direction := normalizeR (subP F1 F0) }, ?_, ?_⟩
    · rw [fit]
      simp [hor, hF, hg]
    · have hd : subP F1 F0 ≠ ⟨0, 0⟩ := by
        intro hzero
        apply hF
        cases F0 with
        | mk ax ay =>
            cases F1 with
            | mk bx by' =>
                simp only [subP, Pt.mk.injEq, sub_eq_zero] at hzero
                simp [Pt.mk.injEq, hzero.1.symm, hzero.2.symm]
      show |hypotR (normalizeR (subP F1 F0)).1 (normalizeR (subP F1 F0)).2 - 1|
          ≤ 1 / 1000000
      rw [normalizeR_unit _ hd]
      norm_num

/-- Witness for the amended C4 at the concrete captured vector (3, 4). -/
theorem payload_front_direction_near_unit_witness :
    ((⟨3, 4⟩ : Pt) ≠ ⟨0, 0⟩) ∧
      |hypotR (payloadFrontDirection ⟨3, 4⟩).1 (payloadFrontDirection ⟨3, 4⟩).2 - 1|
        ≤ 1 / 10000 :=
  ⟨by decide, payload_front_direction_near_unit.1 ⟨3, 4⟩ (by decide)⟩

/-- Counterexample for C4 as stated: for the captured vector (1, 1) the
client's normalize-then-`toFixed(4)` pipeline yields (0.7071, 0.7071), whose
Euclidean length differs from 1 by about `9.6e-6`, which exceeds the claimed
tolerance `1e-6`. -/
theorem payload_front_direction_tolerance_counterexample :
    1 / 1000000 <
      |hypotR (payloadFrontDirection ⟨1, 1⟩).1 (payloadFrontDirection ⟨1, 1⟩).2 - 1| := by
  have hs2 : Real.sqrt 2 ^ 2 = 2 := Real.sq_sqrt (by norm_num)
  have hs2pos : 0 < Real.sqrt 2 := Real.sqrt_pos.mpr (by norm_num)
  have hub : Real.sqrt 2 < 1.41422 := by nlinarith
  have hlb : 1.41421 < Real.sqrt 2 := by nlinarith
  have hhy : hypotR ((1 : ℚ) : ℝ) ((1 : ℚ) : ℝ) = Real.sqrt 2 := by
    rw [hypotR]
    norm_num
  have hne : hypotR ((1 : ℚ) : ℝ) ((1 : ℚ) : ℝ) ≠ 0 := by
    rw [hhy]; exact ne_of_gt hs2pos
  have hinv : (1 : ℝ) / Real.sqrt 2 = Real.sqrt 2 / 2 := by
    rw [div_eq_div_iff (by positivity) (by norm_num)]
    nlinarith
  have hround : round ((1 / Real.sqrt 2) * 10000) = 7071 := by
    rw [hinv]
    have hval : Real.sqrt 2 / 2 * 10000 = 5000 * Real.sqrt 2 := by ring
    rw [hval, round_eq]
    apply Int.floor_eq_iff.mpr
    constructor
    · push_cast
      nlinarith
    · push_cast
      nlinarith
  have harg : ((1 : ℚ) : ℝ) / hypotR ((1 : ℚ) : ℝ) ((1 : ℚ) : ℝ) * 10000
      = 1 / Real.sqrt 2 * 10000 := by rw [hhy]; norm_num
  have hcomp : payloadFrontDirection ⟨1, 1⟩ =
      (((7071 : ℤ) : ℝ) / 10000, ((7071 : ℤ) : ℝ) / 10000) := by
    rw [payloadFrontDirection]
    dsimp only
    rw [if_neg hne]
    simp only [jsToFixed4R]
    rw [harg, hround]
  rw [hcomp]
  have hlen : hypotR (((7071 : ℤ) : ℝ) / 10000) (((7071 : ℤ) : ℝ) / 10000)
      = (7071 / 10000 : ℝ) * Real.sqrt 2 := by
    rw [hypotR]
    have : ((((7071 : ℤ) : ℝ) / 10000) ^ 2 + (((7071 : ℤ) : ℝ) / 10000) ^ 2)
        = ((7071 / 10000 : ℝ)) ^ 2 * 2 := by push_cast; ring
    rw [this, Real.sqrt_mul (by positivity), Real.sqrt_sq (by norm_num)]
  rw [hlen]
  have hlt1 : (7071 / 10000 : ℝ) * Real.sqrt 2 < 1 - 1 / 1000000 := by nlinarith
  have hge0 : (0 : ℝ) ≤ (7071 / 10000 : ℝ) * Real.sqrt 2 := by positivity
  rw [abs_sub_comm, abs_of_pos (by linarith)]
  linarith

/-! ### C6: the fitted footprint encloses every input vertex -/

theorem dotP_comm (a b : Pt) : dotP a b = dotP b a := by
  cases a; cases b
  simp only [dotP]
  ring

theorem dotP_self_pos (u : Pt) (hu : u ≠ ⟨0, 0⟩) : 0 < dotP u u := by
  cases u with
  | mk ux uy =>
      rw [dotP]
      have h : ux ≠ 0 ∨ uy ≠ 0 := by
        by_contra hcon
        push_neg at hcon
        exact hu (by simp [Pt.mk.injEq, hcon.1, hcon.2])
      rcases h with h | h
      · have := mul_self_pos.mpr h
        nlinarith [mul_self_nonneg uy]
      · have := mul_self_pos.mpr h
        nlinarith [mul_self_nonneg ux]

theorem fitU_ne_zero (P0 P1 P2 : Pt) (hor : orient P0 P1 P2 ≠ 0) :
    fitU P0 P1 ≠ ⟨0, 0⟩ := by
  intro h
  apply hor
  cases P0 with
  | mk ax ay =>
      cases P1 with
      | mk bx bty =>
          cases P2 with
          | mk cx cy =>
              simp only [fitU, subP, Pt.mk.injEq] at h
              rw [orient]
              dsimp only
              linear_combination (cy - ay) * h.1 - (cx - ax) * h.2

theorem dotP_fitUV (P0 P1 P2 : Pt) : dotP (fitU P0 P1) (fitV P0 P1 P2) = 0 := by
  rw [fitV]
  split
  · cases P0; cases P1
    simp only [fitU, subP, rot90, smulP, dotP]
    ring
  · cases P0; cases P1
    simp only [fitU, subP, rot90, dotP]
    ring

theorem dotP_fitV_self (P0 P1 P2 : Pt) :
    dotP (fitV P0 P1 P2) (fitV P0 P1 P2) = dotP (fitU P0 P1) (fitU P0 P1) := by
  rw [fitV]
  split
  · cases P0; cases P1
    simp only [fitU, subP, rot90, smulP, dotP]
    ring
  · cases P0; cases P1
    simp only [fitU, subP, rot90, dotP]
    ring

theorem dot_edge_a (P0 u v : Pt) (a0 b0 a1 : ℚ) (p : Pt) :
    dotP (subP p (fitCorner P0 u v a0 b0))
        (subP (fitCorner P0 u v a1 b0) (fitCorner P0 u v a0 b0))
      = (a1 - a0) * (dotP (subP p P0) u - a0 * dotP u u - b0 * dotP v u) := by
  cases P0; cases u; cases v; cases p
  simp only [fitCorner, addP, smulP, subP, dotP]
  ring

theorem dot_edge_b (P0 u v : Pt) (a0 b0 b1 : ℚ) (p : Pt) :
    dotP (subP p (fitCorner P0 u v a0 b0))
        (subP (fitCorner P0 u v a0 b1) (fitCorner P0 u v a0 b0))
      = (b1 - b0) * (dotP (subP p P0) v - b0 * dotP v v - a0 * dotP u v) := by
  cases P0; cases u; cases v; cases p
  simp only [fitCorner, addP, smulP, subP, dotP]
  ring

theorem edge_len_a (P0 u v : Pt) (a0 b0 a1 : ℚ) :
    dotP (subP (fitCorner P0 u v a1 b0) (fitCorner P0 u v a0 b0))
        (subP (fitCorner P0 u v a1 b0) (fitCorner P0 u v a0 b0))
      = (a1 - a0) ^ 2 * dotP u u := by
  cases P0; cases u; cases v
  simp only [fitCorner, addP, smulP, subP, dotP]
  ring

theorem edge_len_b (P0 u v : Pt) (a0 b0 b1 : ℚ) :
    dotP (subP (fitCorner P0 u v a0 b1) (fitCorner P0 u v a0 b0))
        (subP (fitCorner P0 u v a0 b1) (fitCorner P0 u v a0 b0))
      = (b1 - b0) ^ 2 * dotP v v := by
  cases P0; cases u; cases v
  simp only [fitCorner, addP, smulP, subP, dotP]
  ring

theorem fitTu_mul (P0 P1 p : Pt) (h : dotP (fitU P0 P1) (fitU P0 P1) ≠ 0) :
    dotP (subP p P0) (fitU P0 P1)
      = fitTu P0 P1 p * dotP (fitU P0 P1) (fitU P0 P1) := by
  rw [fitTu]
  field_simp

theorem fitTv_mul (P0 P1 P2 p : Pt)
    (h : dotP (fitV P0 P1 P2) (fitV P0 P1 P2) ≠ 0) :
    dotP (subP p P0) (fitV P0 P1 P2)
      = fitTv P0 P1 P2 p * dotP (fitV P0 P1 P2) (fitV P0 P1 P2) := by
  rw [fitTv]
  field_simp

theorem fitTu_bounds (P0 P1 : Pt) (geometry : List (List Pt)) (p : Pt)
    (hp : p ∈ fitVerts geometry) :
    fitTuMin P0 P1 geometry ≤ fitTu P0 P1 p ∧
      fitTu P0 P1 p ≤ fitTuMax P0 P1 geometry := by
  have hmem : fitTu P0 P1 p ∈ (fitVerts geometry).map (fitTu P0 P1) :=
    List.mem_map.mpr ⟨p, hp, rfl⟩
  exact ⟨jsMin_le _ _ hmem, le_jsMax _ _ hmem⟩

theorem fitTv_bounds (P0 P1 P2 : Pt) (geometry : List (List Pt)) (p : Pt)
    (hp : p ∈ fitVerts geometry) :
    fitTvMin P0 P1 P2 geometry ≤ fitTv P0 P1 P2 p ∧
      fitTv P0 P1 P2 p ≤ fitTvMax P0 P1 P2 geometry := by
  have hmem : fitTv P0 P1 P2 p ∈ (fitVerts geometry).map (fitTv P0 P1 P2) :=
    List.mem_map.mpr ⟨p, hp, rfl⟩
  exact ⟨jsMin_le _ _ hmem, le_jsMax _ _ hmem⟩

/-- C6: for every valid fit input (non-collinear rectangle points, distinct
front points, at least one polyline vertex), `fit` succeeds and the returned
rectangle (its four corners) contains every input polyline vertex; moreover
the extents are tight: each of the four bounds is attained by some vertex. -/
theorem fit_encloses (P0 P1 P2 F0 F1 : Pt) (geometry : List (List Pt))
    (hor : orient P0 P1 P2 ≠ 0) (hF : F0 ≠ F1) (hg : fitVerts geometry ≠ []) :
    ∃ r, fit P0 P1 P2 F0 F1 geometry = some r ∧
      r.footprint_points = fitCorners P0 P1 P2 geometry ∧
      (∀ p ∈ fitVerts geometry, inRect4 r.footprint_points p) ∧
      (∃ p ∈ fitVerts geometry, fitTu P0 P1 p = fitTuMin P0 P1 geometry) ∧
      (∃ p ∈ fitVerts geometry, fitTu P0 P1 p = fitTuMax P0 P1 geometry) ∧
      (∃ p ∈ fitVerts geometry, fitTv P0 P1 P2 p = fitTvMin P0 P1 P2 geometry) ∧
      (∃ p ∈ fitVerts geometry, fitTv P0 P1 P2 p = fitTvMax P0 P1 P2 geometry) := by
  have hu := fitU_ne_zero P0 P1 P2 hor
  have hduu : 0 < dotP (fitU P0 P1) (fitU P0 P1) := dotP_self_pos _ hu
  have hdvv : 0 < dotP (fitV P0 P1 P2) (fitV P0 P1 P2) := by
    rw [dotP_fitV_self]
    exact hduu
  have huv : dotP (fitU P0 P1) (fitV P0 P1 P2) = 0 := dotP_fitUV P0 P1 P2
  have hvu : dotP (fitV P0 P1 P2) (fitU P0 P1) = 0 := by
    rw [dotP_comm]
    exact huv
  obtain ⟨q, hq⟩ : ∃ q, q ∈ fitVerts geometry := by
    cases hvg : fitVerts geometry with
    | nil => exact absurd hvg hg
    | cons a t => exact ⟨a, by simp [hvg]⟩
  have hqa := fitTu_bounds P0 P1 geometry q hq
  have hqb := fitTv_bounds P0 P1 P2 geometry q hq
  have ha01 : fitTuMin P0 P1 geometry ≤ fitTuMax P0 P1 geometry :=
    le_trans hqa.1 hqa.2
  have hb01 : fitTvMin P0 P1 P2 geometry ≤ fitTvMax P0 P1 P2 geometry :=
    le_trans hqb.1 hqb.2
  have hmapu : (fitVerts geometry).map (fitTu P0 P1) ≠ [] := by
    intro hc
    exact hg (List.map_eq_nil_iff.mp hc)
  have hmapv : (fitVerts geometry).map (fitTv P0 P1 P2) ≠ [] := by
    intro hc
    exact hg (List.map_eq_nil_iff.mp hc)
  refine ⟨{ footprint_points := fitCorners P0 P1 P2 geometry,
            front_origin := fitFrontOrigin P0 P1 P2 F0 geometry,
            front_direction := normalizeR (subP F1 F0) }, ?_, rfl, ?_, ?_, ?_, ?_, ?_⟩
  · rw [fit]
    simp [hor, hF, hg]
  · intro p hp
    have hpa := fitTu_bounds P0 P1 geometry p hp
    have hpb := fitTv_bounds P0 P1 P2 geometry p hp
    show inRect4 (fitCorners P0 P1 P2 geometry) p
    rw [fitCorners]
    refine ⟨?_, ?_, ?_, ?_⟩
    · rw [dot_edge_a, fitTu_mul P0 P1 p (ne_of_gt hduu), hvu]
      nlinarith [hpa.1, hpa.2, ha01, hduu,
        mul_nonneg (mul_nonneg (sub_nonneg.mpr ha01) (sub_nonneg.mpr hpa.1)) hduu.le]
    · rw [dot_edge_a, edge_len_a, fitTu_mul P0 P1 p (ne_of_gt hduu), hvu]
      nlinarith [hpa.1, hpa.2, ha01, hduu,
        mul_nonneg (mul_nonneg (sub_nonneg.mpr ha01) (sub_nonneg.mpr hpa.2)) hduu.le]
    · rw [dot_edge_b, fitTv_mul P0 P1 P2 p (ne_of_gt hdvv), huv]
      nlinarith [hpb.1, hpb.2, hb01, hdvv,
        mul_nonneg (mul_nonneg (sub_nonneg.mpr hb01) (sub_nonneg.mpr hpb.1)) hdvv.le]
    · rw [dot_edge_b, edge_len_b, fitTv_mul P0 P1 P2 p (ne_of_gt hdvv), huv]
      nlinarith [hpb.1, hpb.2, hb01, hdvv,
        mul_nonneg (mul_nonneg (sub_nonneg.mpr hb01) (sub_nonneg.mpr hpb.2)) hdvv.le]
  · have hmem := jsMin_mem _ hmapu
    obtain ⟨p, hp, hpe⟩ := List.mem_map.mp hmem
    exact ⟨p, hp, hpe⟩
  · have hmem := jsMax_mem _ hmapu
    obtain ⟨p, hp, hpe⟩ := List.mem_map.mp hmem
    exact ⟨p, hp, hpe⟩
  · have hmem := jsMin_mem _ hmapv
    obtain ⟨p, hp, hpe⟩ := List.mem_map.mp hmem
    exact ⟨p, hp, hpe⟩
  · have hmem := jsMax_mem _ hmapv
    obtain ⟨p, hp, hpe⟩ := List.mem_map.mp hmem
    exact ⟨p, hp, hpe⟩

/-- Witness for C6 at the spec §8 concrete scenario: rectangle points
(0,0),(30,0),(0,20), a single rectangular polyline, front points
(5,5),(10,5). -/
theorem fit_encloses_witness :
    (fit ⟨0, 0⟩ ⟨30, 0⟩ ⟨0, 20⟩ ⟨5, 5⟩ ⟨10, 5⟩
        [[⟨2, 2⟩, ⟨28, 2⟩, ⟨28, 18⟩, ⟨2, 18⟩, ⟨2, 2⟩]]).isSome = true := by
  obtain ⟨r, hr, -⟩ := fit_encloses ⟨0, 0⟩ ⟨30, 0⟩ ⟨0, 20⟩ ⟨5, 5⟩ ⟨10, 5⟩
    [[⟨2, 2⟩, ⟨28, 2⟩, ⟨28, 18⟩, ⟨2, 18⟩, ⟨2, 2⟩]]
    (by norm_num [orient]) (by decide) (by decide)
  rw [hr]
  rfl

/-! ### C7: fit is pure and deterministic -/

theorem jsMin_perm (l l' : List ℚ) (h : l.Perm l') : jsMin l = jsMin l' := by
  rcases eq_or_ne l [] with hl | hl
  · subst hl
    rw [(h.symm.eq_nil : l' = [])]
  · have hl' : l' ≠ [] := fun hc => hl ((hc ▸ h).eq_nil)
    exact le_antisymm
      (jsMin_le l (jsMin l') (h.mem_iff.mpr (jsMin_mem l' hl')))
      (jsMin_le l' (jsMin l) (h.mem_iff.mp (jsMin_mem l hl)))

theorem jsMax_perm (l l' : List ℚ) (h : l.Perm l') : jsMax l = jsMax l' := by
  rcases eq_or_ne l [] with hl | hl
  · subst hl
    rw [(h.symm.eq_nil : l' = [])]
  · have hl' : l' ≠ [] := fun hc => hl ((hc ▸ h).eq_nil)
    exact le_antisymm
      (le_jsMax l' (jsMax l) (h.mem_iff.mp (jsMax_mem l hl)))
      (le_jsMax l (jsMax l') (h.mem_iff.mpr (jsMax_mem l' hl')))

/-- C7: `fit` is a pure function — two calls on identical inputs return
identical outputs — and the extent reductions it is built from are
order-independent: permuting the list fed to the total min/max reduction
does not change the result. -/
theorem fit_deterministic :
    (∀ (P0 P1 P2 F0 F1 P0' P1' P2' F0' F1' : Pt) (g g' : List (List Pt)),
        P0 = P0' → P1 = P1' → P2 = P2' → F0 = F0' → F1 = F1' → g = g' →
        fit P0 P1 P2 F0 F1 g = fit P0' P1' P2' F0' F1' g') ∧
    (∀ l l' : List ℚ, l.Perm l' → jsMin l = jsMin l' ∧ jsMax l = jsMax l') := by
  constructor
  · intro P0 P1 P2 F0 F1 P0' P1' P2' F0' F1' g g' h1 h2 h3 h4 h5 h6
    rw [h1, h2, h3, h4, h5, h6]
  · intro l l' h
    exact ⟨jsMin_perm l l' h, jsMax_perm l l' h⟩

/-- Witness for C7 at a concrete input and a concrete permutation. -/
theorem fit_deterministic_witness :
    fit ⟨0, 0⟩ ⟨1, 0⟩ ⟨0, 1⟩ ⟨0, 0⟩ ⟨1, 1⟩ [[⟨0, 0⟩]]
        = fit ⟨0, 0⟩ ⟨1, 0⟩ ⟨0, 1⟩ ⟨0, 0⟩ ⟨1, 1⟩ [[⟨0, 0⟩]] ∧
      jsMin [1, 2] = jsMin [2, 1] :=
  ⟨fit_deterministic.1 _ _ _ _ _ _ _ _ _ _ _ _ rfl rfl rfl rfl rfl rfl,
   (fit_deterministic.2 [1, 2] [2, 1] (List.Perm.swap 2 1 [])).1⟩

end ParcelCrawl
